import Mathlib

/-!
Shallow embedding of the customer-matching / merge core of the CDP
(`core/matcher.py`, `core/cdp.py`, `models/schemas.py`, `config.py`).

Conventions of the embedding:
* Python `Optional[str]` fields become `Option String`.
* Python float scores become exact rationals (`ℚ`); the float literals
  0.40, 0.25, … of `config.py` are exactly representable, so the weighted
  sums agree with the source wherever no rounding occurs.
* Python string truthiness (`if not s`) becomes emptiness of the char list.
* `str.lower()` is modelled per-character with `Char.toLower` (ASCII case
  mapping, as the source data is ASCII), `str.strip()` / regex `\s+` with
  the ASCII whitespace class, and regex `[^\d]` with ASCII digits.
* `difflib.SequenceMatcher` (no junk) is modelled by the documented
  algorithm: repeatedly take the longest matching block, earliest in the
  first string and then in the second, and recurse on both sides; the
  autojunk heuristic (only active when the second string has 200 or more
  characters) is not modelled.
* The SQLAlchemy record store becomes an explicit list of rows; `LIKE
  '%p%'` / `ilike` become case-insensitive substring tests (SQLite `LIKE`
  is ASCII-case-insensitive), `==` column filters stay case-sensitive.
-/

/-- Python truthiness of a string: `False` exactly for `""`. -/
def truthyStr (s : String) : Bool := !s.data.isEmpty

/-- Python truthiness of an `Optional[str]`: `None` and `""` are falsy. -/
def truthy : Option String → Bool
  | none => false
  | some s => truthyStr s

/-- The ASCII whitespace class of Python's `str.strip` / regex `\s`. -/
def pyIsSpace (c : Char) : Bool :=
  c = ' ' || c = '\t' || c = '\n' || c = '\r' || c = '\x0b' || c = '\x0c'

/-- Python `str.strip()` on a char list: drop whitespace at both ends. -/
def pyStrip (l : List Char) : List Char :=
  ((l.dropWhile pyIsSpace).reverse.dropWhile pyIsSpace).reverse

/-- Regex `re.sub(r'\s+', ' ', ·)`: every maximal whitespace run becomes one `' '`. -/
def collapseWS : List Char → List Char
  | [] => []
  | c :: rest =>
    if pyIsSpace c then ' ' :: collapseWS (rest.dropWhile pyIsSpace)
    else c :: collapseWS rest
termination_by l => l.length
decreasing_by
  · simp only [List.length_cons]
    exact Nat.lt_succ_of_le (List.Sublist.length_le (List.dropWhile_sublist pyIsSpace))
  · simp

/-- Embeds `CustomerMatcher.normalize_text`: lowercase, strip, collapse whitespace runs. -/
def normalize_text (s : String) : String :=
  if s.data.isEmpty then ""
  else ⟨collapseWS (pyStrip (s.data.map Char.toLower))⟩

/-- Embeds `CustomerMatcher.normalize_document`: keep only digits (`re.sub(r'[^\d]', '', ·)`). -/
def normalize_document (s : String) : String :=
  if s.data.isEmpty then "" else ⟨s.data.filter Char.isDigit⟩

/-- Embeds `CustomerMatcher.normalize_phone`: same digit filter as `normalize_document`. -/
def normalize_phone (s : String) : String :=
  if s.data.isEmpty then "" else ⟨s.data.filter Char.isDigit⟩

/-- Length of the common prefix of two char lists. -/
def runLen : List Char → List Char → Nat
  | x :: xs, y :: ys => if x = y then runLen xs ys + 1 else 0
  | _, _ => 0

/-- Embeds `SequenceMatcher.find_longest_match` on whole lists (no junk): the
longest matching block, ties resolved to the earliest start in `a`, then
the earliest start in `b`; mirrors the `k > bestsize` scan of difflib. -/
def findLongestBlock (a b : List Char) : Nat × Nat × Nat :=
  ((List.range a.length).flatMap fun i =>
      (List.range b.length).map fun j => (i, j)).foldl
    (fun best ij =>
      let k := runLen (a.drop ij.1) (b.drop ij.2)
      if k > best.2.2 then (ij.1, ij.2, k) else best)
    (0, 0, 0)

/-- Total matched characters of `SequenceMatcher.get_matching_blocks`:
take the longest block, recurse left and right of it.  `fuel` dominates
the recursion depth; `length a + 1` always suffices. -/
def matchesTotal : Nat → List Char → List Char → Nat
  | 0, _, _ => 0
  | fuel + 1, a, b =>
    let (i, j, k) := findLongestBlock a b
    if k = 0 then 0
    else
      matchesTotal fuel (a.take i) (b.take j) + k +
        matchesTotal fuel (a.drop (i + k)) (b.drop (j + k))

/-- Embeds `SequenceMatcher.ratio`: `2·M / T` (and `1.0` when both inputs are empty). -/
def ratioVal (a b : List Char) : ℚ :=
  let total := a.length + b.length
  if total = 0 then 1
  else (2 * (matchesTotal (a.length + 1) a b : ℚ)) / (total : ℚ)

/-- Embeds `CustomerMatcher.similarity_score`. -/
def similarity_score (s1 s2 : String) : ℚ :=
  if !truthyStr s1 || !truthyStr s2 then 0
  else ratioVal s1.data s2.data

/-- Embeds the `models/schemas.py` `CustomerData` dataclass: ten optional string fields. -/
structure CustomerData where
  email : Option String := none
  documento : Option String := none
  nome : Option String := none
  telefone : Option String := none
  endereco : Option String := none
  cidade : Option String := none
  estado : Option String := none
  cep : Option String := none
  data_nascimento : Option String := none
  profissao : Option String := none
deriving DecidableEq, Repr

/-- Embeds `CustomerData.is_empty`: every field is `None` or blank after strip. -/
def CustomerData.is_empty (c : CustomerData) : Bool :=
  [c.email, c.documento, c.nome, c.telefone, c.endereco, c.cidade,
   c.estado, c.cep, c.data_nascimento, c.profissao].all
    fun v => match v with
      | none => true
      | some s => (pyStrip s.data).isEmpty

/-- The six weights of `config.FIELD_WEIGHTS`, kept configurable as in
`CustomerMatcher.__init__`. -/
structure Weights where
  documento : ℚ
  email : ℚ
  telefone : ℚ
  nome : ℚ
  endereco : ℚ
  data_nascimento : ℚ
deriving DecidableEq, Repr

/-- Embeds `config.FIELD_WEIGHTS`. -/
def FIELD_WEIGHTS : Weights :=
  { documento := 40/100, email := 25/100, telefone := 20/100,
    nome := 5/100, endereco := 5/100, data_nascimento := 5/100 }

/-- Embeds `config.SIMILARITY_THRESHOLD`. -/
def SIMILARITY_THRESHOLD : ℚ := 8/10

/-- Embeds `config.LOW_SIMILARITY_THRESHOLD`. -/
def LOW_SIMILARITY_THRESHOLD : ℚ := 3/10

/-- Embeds `config.MATCH_THRESHOLD`. -/
def MATCH_THRESHOLD : ℚ := 7/10

/-- Embeds `CustomerMatcher._check_document_match`. -/
def check_document_match (w : Weights) (doc1 doc2 : Option String) :
    ℚ × List (String × String) :=
  if !truthy doc1 || !truthy doc2 then (0, [])
  else
    let n1 := normalize_document (doc1.getD "")
    let n2 := normalize_document (doc2.getD "")
    if n1 = n2 ∧ truthyStr n1 then (w.documento, [])
    else if truthyStr n1 ∧ truthyStr n2 ∧ n1 ≠ n2 then
      (0, [("documento", "Doc1: " ++ n1 ++ " vs Doc2: " ++ n2)])
    else (0, [])

/-- Embeds `CustomerMatcher._check_email_match`. -/
def check_email_match (w : Weights) (email1 email2 : Option String) : ℚ :=
  if !truthy email1 || !truthy email2 then 0
  else if (email1.getD "").data.map Char.toLower
      = (email2.getD "").data.map Char.toLower then w.email
  else 0

/-- Embeds `CustomerMatcher._check_name_match`. -/
def check_name_match (w : Weights) (name1 name2 : Option String) :
    ℚ × List (String × String) :=
  if !truthy name1 || !truthy name2 then (0, [])
  else
    let nn1 := normalize_text (name1.getD "")
    let nn2 := normalize_text (name2.getD "")
    let sim := similarity_score nn1 nn2
    if sim > SIMILARITY_THRESHOLD then (w.nome * sim, [])
    else if sim < LOW_SIMILARITY_THRESHOLD then
      (0, [("nome", "Nome1: " ++ name1.getD "" ++ " vs Nome2: " ++ name2.getD "")])
    else (0, [])

/-- Embeds `CustomerMatcher._check_phone_match`. -/
def check_phone_match (w : Weights) (phone1 phone2 : Option String) :
    ℚ × List (String × String) :=
  if !truthy phone1 || !truthy phone2 then (0, [])
  else
    let n1 := normalize_phone (phone1.getD "")
    let n2 := normalize_phone (phone2.getD "")
    if n1 = n2 ∧ truthyStr n1 then (w.telefone, [])
    else if truthyStr n1 ∧ truthyStr n2 ∧ n1 ≠ n2 then
      (0, [("telefone", "Tel1: " ++ n1 ++ " vs Tel2: " ++ n2)])
    else (0, [])

/-- Embeds `CustomerMatcher._check_birthdate_match`. -/
def check_birthdate_match (w : Weights) (date1 date2 : Option String) :
    ℚ × List (String × String) :=
  if !truthy date1 || !truthy date2 then (0, [])
  else if date1.getD "" = date2.getD "" then (w.data_nascimento, [])
  else (0, [("data_nascimento",
      "Data1: " ++ date1.getD "" ++ " vs Data2: " ++ date2.getD "")])

/-- Embeds `CustomerMatcher._check_address_match`. -/
def check_address_match (w : Weights) (addr1 addr2 : Option String) : ℚ :=
  if !truthy addr1 || !truthy addr2 then 0
  else
    let sim := similarity_score (normalize_text (addr1.getD ""))
      (normalize_text (addr2.getD ""))
    if sim > 7/10 then w.endereco * sim else 0

/-- Embeds `CustomerMatcher.calculate_match_score`.  A document conflict returns
immediately; otherwise scores and (for the fields the source counts)
weights accumulate, the score is normalized by the accumulated weight and
halved when more than one conflict was collected.  Note that the source
adds the `data_nascimento` score to the numerator but never adds its
weight to `total_weight`. -/
def calculate_match_score (w : Weights) (customer1 customer2 : CustomerData) :
    ℚ × List (String × String) :=
  let dres := check_document_match w customer1.documento customer2.documento
  if dres.2 ≠ [] then (0, dres.2)
  else
    let total_score0 := dres.1
    let total_weight0 : ℚ :=
      if truthy customer1.documento && truthy customer2.documento then w.documento else 0
    let email_score := check_email_match w customer1.email customer2.email
    let total_score1 := total_score0 + email_score
    let total_weight1 := total_weight0 +
      (if truthy customer1.email && truthy customer2.email then w.email else 0)
    let nres := check_name_match w customer1.nome customer2.nome
    let total_score2 := total_score1 + nres.1
    let total_weight2 := total_weight1 +
      (if truthy customer1.nome && truthy customer2.nome then w.nome else 0)
    let pres := check_phone_match w customer1.telefone customer2.telefone
    let total_score3 := total_score2 + pres.1
    let total_weight3 := total_weight2 +
      (if truthy customer1.telefone && truthy customer2.telefone then w.telefone else 0)
    let bres := check_birthdate_match w customer1.data_nascimento customer2.data_nascimento
    let total_score4 := total_score3 + bres.1
    let addr_score := check_address_match w customer1.endereco customer2.endereco
    let total_score5 := total_score4 + addr_score
    let total_weight4 := total_weight3 +
      (if truthy customer1.endereco && truthy customer2.endereco then w.endereco else 0)
    let all_conflicts := nres.2 ++ pres.2 ++ bres.2
    let final_score := if total_weight4 > 0 then total_score5 / total_weight4 else 0
    let final_score := if all_conflicts.length > 1 then final_score * (1/2) else final_score
    (final_score, all_conflicts)

/-- The ten recognized customer fields (`config.VALID_CUSTOMER_FIELDS`),
as an enumeration so the `getattr`/`setattr` loop of the source can be
modelled by total accessors. -/
inductive FieldName where
  | nome | email | documento | telefone | endereco
  | cidade | estado | cep | data_nascimento | profissao
deriving DecidableEq, Repr

/-- The Python attribute name of a `Field`. -/
def FieldName.attrName : FieldName → String
  | .nome => "nome"
  | .email => "email"
  | .documento => "documento"
  | .telefone => "telefone"
  | .endereco => "endereco"
  | .cidade => "cidade"
  | .estado => "estado"
  | .cep => "cep"
  | .data_nascimento => "data_nascimento"
  | .profissao => "profissao"

/-- Embeds `getattr(customer_data, field)`. -/
def getField (c : CustomerData) : FieldName → Option String
  | .nome => c.nome
  | .email => c.email
  | .documento => c.documento
  | .telefone => c.telefone
  | .endereco => c.endereco
  | .cidade => c.cidade
  | .estado => c.estado
  | .cep => c.cep
  | .data_nascimento => c.data_nascimento
  | .profissao => c.profissao

/-- Embeds `setattr(customer_data, field, v)`. -/
def setField (c : CustomerData) : FieldName → Option String → CustomerData
  | .nome, v => { c with nome := v }
  | .email, v => { c with email := v }
  | .documento, v => { c with documento := v }
  | .telefone, v => { c with telefone := v }
  | .endereco, v => { c with endereco := v }
  | .cidade, v => { c with cidade := v }
  | .estado, v => { c with estado := v }
  | .cep, v => { c with cep := v }
  | .data_nascimento, v => { c with data_nascimento := v }
  | .profissao, v => { c with profissao := v }

/-- Embeds `config.VALID_CUSTOMER_FIELDS`, in source order. -/
def VALID_CUSTOMER_FIELDS : List FieldName :=
  [.nome, .email, .documento, .telefone, .endereco,
   .cidade, .estado, .cep, .data_nascimento, .profissao]

/-- The merge-loop test `new_value is not None and str(new_value).strip()`. -/
def presentVal : Option String → Bool
  | none => false
  | some s => !(pyStrip s.data).isEmpty

/-- Embeds the `models/schemas.py` `HistoryEntry` dataclass. -/
structure HistoryEntry where
  timestamp : String
  field : String
  old_value : Option String
  new_value : Option String
  source : String
  confidence : ℚ
deriving DecidableEq, Repr

/-- The field loop of `CustomerDataPlatform._merge_customer_data`:
processes `fields` in order, writing into the accumator record `m`
(which starts as `CustomerData()`) and emitting history entries in field
order. -/
def mergeFields (existing new_data : CustomerData) (source ts : String) :
    List FieldName → CustomerData → CustomerData × List HistoryEntry
  | [], m => (m, [])
  | f :: fs, m =>
    let existing_value := getField existing f
    let new_value := getField new_data f
    if presentVal new_value then
      if existing_value ≠ new_value then
        let r := mergeFields existing new_data source ts fs (setField m f new_value)
        (r.1, { timestamp := ts, field := f.attrName, old_value := existing_value,
                new_value := new_value, source := source, confidence := 1 } :: r.2)
      else mergeFields existing new_data source ts fs (setField m f new_value)
    else mergeFields existing new_data source ts fs (setField m f existing_value)

/-- Embeds `CustomerDataPlatform._merge_customer_data` (`ts` stands for the
`datetime.now().isoformat()` timestamp taken at the start of the call). -/
def merge_customer_data (existing new_data : CustomerData) (source ts : String) :
    CustomerData × List HistoryEntry :=
  mergeFields existing new_data source ts VALID_CUSTOMER_FIELDS {}

/-- A persisted customer row (`models/database.py` `CustomerModel`, with
`sources` already JSON-decoded as the source does on every read). -/
structure CustomerRow where
  id : String
  data : CustomerData
  created_at : String
  updated_at : String
  sources : List String
  confidence_score : ℚ
deriving DecidableEq, Repr

/-- A persisted history row (`models/database.py` `HistoryModel`). -/
structure HistRow where
  customer_id : String
  timestamp : String
  field : String
  old_value : Option String
  new_value : Option String
  source : String
  confidence : ℚ
deriving DecidableEq, Repr

/-- The record store visible to the core: customer rows plus history rows. -/
structure DBState where
  customers : List CustomerRow
  history : List HistRow
deriving DecidableEq, Repr

/-- Case-insensitive substring test: `l` starts with `pat`. -/
def startsWithCh : List Char → List Char → Bool
  | _, [] => true
  | [], _ :: _ => false
  | a :: as, b :: bs => a = b && startsWithCh as bs

/-- Tests whether `pat` occurs as a contiguous substring of `l`. -/
def containsSub (l pat : List Char) : Bool :=
  startsWithCh l pat ||
    match l with
    | [] => false
    | _ :: rest => containsSub rest pat

/-- SQL `col LIKE '%pat%'` / `col ILIKE '%pat%'` on a nullable column:
`NULL` never matches; otherwise case-insensitive containment (SQLite's
`LIKE` is ASCII-case-insensitive, `ilike` lowers both sides). -/
def sqlLike (col : Option String) (pat : String) : Bool :=
  match col with
  | none => false
  | some s => containsSub (s.data.map Char.toLower) (pat.data.map Char.toLower)

/-- Embeds the `seen_ids` loop of `_find_potential_matches_in_db`:
removes duplicate candidates by id, order-preserving. -/
def dedupById : List CustomerRow → List String → List CustomerRow
  | [], _ => []
  | r :: rs, seen =>
    if r.id ∈ seen then dedupById rs seen
    else r :: dedupById rs (r.id :: seen)

/-- Embeds `CustomerDataPlatform._find_potential_matches_in_db`: the four key
lookups, concatenated in source order, de-duplicated by id keeping the
first occurrence. -/
def find_potential_matches_in_db (db : DBState) (customer_data : CustomerData) :
    List CustomerRow :=
  let doc_matches :=
    if truthy customer_data.documento then
      let doc_normalized := normalize_document (customer_data.documento.getD "")
      if truthyStr doc_normalized then
        db.customers.filter fun r => sqlLike r.data.documento doc_normalized
      else []
    else []
  let email_matches :=
    if truthy customer_data.email then
      db.customers.filter fun r => r.data.email = customer_data.email
    else []
  let name_matches :=
    if truthy customer_data.nome then
      let nome_normalized := normalize_text (customer_data.nome.getD "")
      if truthyStr nome_normalized then
        (nome_normalized.splitOn " ").flatMap fun part =>
          if part.length > 2 then
            db.customers.filter fun r => sqlLike r.data.nome part
          else []
      else []
    else []
  let tel_matches :=
    if truthy customer_data.telefone then
      let tel_normalized := normalize_phone (customer_data.telefone.getD "")
      if truthyStr tel_normalized then
        db.customers.filter fun r => sqlLike r.data.telefone tel_normalized
      else []
    else []
  dedupById (doc_matches ++ email_matches ++ name_matches ++ tel_matches) []

/-- Embeds the `models/schemas.py` `MatchResult` dataclass. -/
structure MatchResult where
  customer_id : String
  score : ℚ
  conflicts : List (String × String)
  is_safe_match : Bool
  reason : String
deriving DecidableEq, Repr

/-- Insert into a descending-by-score list, before the first strictly
smaller element: the stable descending sort below is extensionally
`matches.sort(key=lambda x: x.score, reverse=True)` (Python's sort is
stable and `reverse=True` keeps equal-score elements in list order). -/
def insertDesc (m : MatchResult) : List MatchResult → List MatchResult
  | [] => [m]
  | x :: xs => if m.score ≥ x.score then m :: x :: xs else x :: insertDesc m xs

/-- Stable descending sort by score. -/
def sortByScoreDesc : List MatchResult → List MatchResult
  | [] => []
  | x :: xs => insertDesc x (sortByScoreDesc xs)

/-- The reason string built in `_find_matching_customers`. -/
def matchReason (conflicts : List (String × String)) : String :=
  if conflicts.isEmpty then "Match seguro"
  else "Conflitos detectados: " ++
    String.intercalate ", " (conflicts.map fun kv => kv.1 ++ ": " ++ kv.2)

/-- Embeds `CustomerDataPlatform._find_matching_customers`: score every
candidate, keep those at or above the threshold, classify safety, sort
descending by score. -/
def find_matching_customers (db : DBState) (threshold : ℚ)
    (customer_data : CustomerData) : List MatchResult :=
  let potential := find_potential_matches_in_db db customer_data
  let scored := potential.filterMap fun customer_model =>
    let sc := calculate_match_score FIELD_WEIGHTS customer_data customer_model.data
    if sc.1 < threshold then none
    else some { customer_id := customer_model.id, score := sc.1, conflicts := sc.2,
                is_safe_match := sc.2.isEmpty, reason := matchReason sc.2 }
  sortByScoreDesc scored

/-- The result dictionary of `CustomerDataPlatform.add_customer_data`,
restricted to the keys the spec talks about. -/
inductive AddOutcome where
  | created (customer_id : String)
  | updated (customer_id : String) (action : String)
      (conflicts : List (String × String)) (changes_made : Nat)
  | conflictDetected (conflicts : List (String × String)) (score : ℚ) (reason : String)
  | errorResult (message : String)
deriving DecidableEq, Repr

/-- Embeds `str(value) if value else None` applied to the old/new values when a
`HistoryEntry` is persisted as a `HistoryModel` row. -/
def strOrNone (v : Option String) : Option String :=
  if truthy v then v else none

/-- A `HistoryEntry` persisted for a customer (`HistoryModel(...)` in
`add_customer_data`). -/
def toHistRow (cid : String) (h : HistoryEntry) : HistRow :=
  { customer_id := cid, timestamp := h.timestamp, field := h.field,
    old_value := strOrNone h.old_value, new_value := strOrNone h.new_value,
    source := h.source, confidence := h.confidence }

/-- Embeds `CustomerDataPlatform.add_customer_data`.  `newId` stands for the
fresh `uuid4` and `ts` for `datetime.now()`; both are taken at the start
of the call.  The returned pair is (result dictionary, store state after
the call). -/
def add_customer_data (db : DBState) (threshold : ℚ) (customer_data : CustomerData)
    (source : String) (force_merge : Bool) (newId ts : String) :
    AddOutcome × DBState :=
  match find_matching_customers db threshold customer_data with
  | best_match :: _ =>
    if !best_match.is_safe_match && !force_merge then
      (.conflictDetected best_match.conflicts best_match.score best_match.reason, db)
    else
      match db.customers.find? fun r => r.id = best_match.customer_id with
      | none =>
        (.errorResult ("Cliente " ++ best_match.customer_id ++ " não encontrado no banco"), db)
      | some existing_model =>
        let mh := merge_customer_data existing_model.data customer_data source ts
        let existing_sources := existing_model.sources
        let sources' := if source ∈ existing_sources then existing_sources
          else existing_sources ++ [source]
        let row' : CustomerRow :=
          { existing_model with
            data := mh.1, updated_at := ts,
            confidence_score := max existing_model.confidence_score best_match.score,
            sources := sources' }
        let db' : DBState :=
          { customers := db.customers.map fun r =>
              if r.id = best_match.customer_id then row' else r,
            history := db.history ++ mh.2.map (toHistRow best_match.customer_id) }
        let action := if force_merge && !best_match.is_safe_match
          then "forced_merge" else "safe_merge"
        (.updated best_match.customer_id action
          (if !best_match.is_safe_match then best_match.conflicts else [])
          mh.2.length, db')
  | [] =>
    let new_customer : CustomerRow :=
      { id := newId, data := customer_data, created_at := ts, updated_at := ts,
        sources := [source], confidence_score := 1 }
    (.created newId, { customers := db.customers ++ [new_customer], history := db.history })

/-- Embeds `CustomerDataPlatform.update_match_threshold`: the pair is (stored
threshold after the call, raised error if any); a raised `ValueError`
leaves the stored threshold untouched. -/
def update_match_threshold (match_threshold new_threshold : ℚ) :
    ℚ × Option String :=
  if 0 ≤ new_threshold ∧ new_threshold ≤ 1 then (new_threshold, none)
  else (match_threshold, some "Threshold deve estar entre 0.0 e 1.0")

theorem truthyStr_eq_true {s : String} : truthyStr s = true ↔ s ≠ "" := by
  unfold truthyStr
  constructor
  · intro h heq
    subst heq
    simp at h
  · intro h
    simp only [Bool.not_eq_true']
    cases hs : s.data.isEmpty with
    | false => rfl
    | true =>
      exact absurd (String.ext (by simpa using hs)) h

theorem truthy_of_normalize_document {o : Option String}
    (h : normalize_document (o.getD "") ≠ "") : truthy o = true := by
  cases o with
  | none => exact absurd rfl h
  | some s =>
    unfold truthy
    rw [truthyStr_eq_true]
    intro heq
    subst heq
    exact absurd rfl h

theorem normalize_document_ne_empty {s : String}
    (h : normalize_document s ≠ "") : truthyStr (normalize_document s) = true :=
  truthyStr_eq_true.mpr h

theorem check_document_match_conflict (w : Weights) {d1 d2 : Option String}
    (h1 : normalize_document (d1.getD "") ≠ "")
    (h2 : normalize_document (d2.getD "") ≠ "")
    (hne : normalize_document (d1.getD "") ≠ normalize_document (d2.getD "")) :
    check_document_match w d1 d2 =
      (0, [("documento", "Doc1: " ++ normalize_document (d1.getD "")
        ++ " vs Doc2: " ++ normalize_document (d2.getD ""))]) := by
  unfold check_document_match
  rw [truthy_of_normalize_document h1, truthy_of_normalize_document h2]
  simp only [Bool.not_true, Bool.or_self, Bool.false_eq_true, if_false]
  rw [if_neg (by intro hc; exact hne hc.1), if_pos]
  exact ⟨normalize_document_ne_empty h1, normalize_document_ne_empty h2, hne⟩

/-- C1: if both documents are non-empty after digit-only normalization and
the normalized values differ, `calculate_match_score` returns score `0`
and the document conflict alone, for every weight configuration and
whatever the remaining fields hold. -/
theorem C1_document_conflict_eliminatory (w : Weights) (a b : CustomerData)
    (h1 : normalize_document (a.documento.getD "") ≠ "")
    (h2 : normalize_document (b.documento.getD "") ≠ "")
    (hne : normalize_document (a.documento.getD "")
      ≠ normalize_document (b.documento.getD "")) :
    calculate_match_score w a b =
      (0, [("documento", "Doc1: " ++ normalize_document (a.documento.getD "")
        ++ " vs Doc2: " ++ normalize_document (b.documento.getD ""))]) := by
  unfold calculate_match_score
  rw [check_document_match_conflict w h1 h2 hne]
  simp

/-- Witness for C1 at a concrete pair with identical names and emails but
clashing documents. -/
theorem C1_document_conflict_eliminatory_witness :
    calculate_match_score FIELD_WEIGHTS
      { documento := some "111", nome := some "Ana", email := some "e@x" }
      { documento := some "222", nome := some "Ana", email := some "e@x" } =
      (0, [("documento", "Doc1: 111 vs Doc2: 222")]) :=
  C1_document_conflict_eliminatory FIELD_WEIGHTS
    { documento := some "111", nome := some "Ana", email := some "e@x" }
    { documento := some "222", nome := some "Ana", email := some "e@x" }
    (by decide) (by decide) (by decide)

/-- C2 (evaluation at the failing input): the source never adds the
`data_nascimento` weight to `total_weight`, so two records agreeing on
email and birth date alone get denominator `0.25` instead of the claimed
`0.25 + 0.05`, and the score `0.30 / 0.25 = 6/5` instead of `1`. -/
theorem C2_birthdate_weight_omitted :
    calculate_match_score FIELD_WEIGHTS
      { email := some "ana@x.com", data_nascimento := some "1990-01-01" }
      { email := some "ana@x.com", data_nascimento := some "1990-01-01" }
      = (6/5, []) ∧
    ((6:ℚ)/5) ≠ (25/100 + 5/100) / ((25:ℚ)/100 + 5/100) := by
  constructor
  · with_unfolding_all rfl
  · norm_num

/-- C5 (evaluation at the failing input): a match score strictly greater
than `1` is reachable, because the `data_nascimento` score enters the
numerator while its weight never enters the denominator. -/
theorem C5_score_exceeds_one :
    (calculate_match_score FIELD_WEIGHTS
      { email := some "bob@site.com", data_nascimento := some "1985-05-05" }
      { email := some "bob@site.com", data_nascimento := some "1985-05-05" }).1 > 1 := by
  with_unfolding_all decide

/-- C9: updating the match threshold with a value outside `[0, 1]` raises
the validation error and keeps the stored threshold; a value inside
`[0, 1]` is stored. -/
theorem C9_update_threshold (cur t : ℚ) :
    (¬ (0 ≤ t ∧ t ≤ 1) →
      update_match_threshold cur t = (cur, some "Threshold deve estar entre 0.0 e 1.0")) ∧
    ((0 ≤ t ∧ t ≤ 1) → update_match_threshold cur t = (t, none)) := by
  constructor <;> intro h <;> simp [update_match_threshold, h]

/-- Witness for C9 at `t = 3/2` (rejected, threshold stays `0.7`) and
`t = 1/2` (accepted). -/
theorem C9_update_threshold_witness :
    (¬ ((0:ℚ) ≤ 3/2 ∧ (3/2:ℚ) ≤ 1) ∧
      update_match_threshold (7/10) (3/2) = (7/10, some "Threshold deve estar entre 0.0 e 1.0")) ∧
    (((0:ℚ) ≤ 1/2 ∧ (1/2:ℚ) ≤ 1) ∧
      update_match_threshold (7/10) (1/2) = (1/2, none)) :=
  ⟨⟨by norm_num, (C9_update_threshold (7/10) (3/2)).1 (by norm_num)⟩,
   ⟨by norm_num, (C9_update_threshold (7/10) (1/2)).2 (by norm_num)⟩⟩

/-- C4 counterexample: a completely empty `CustomerData` is **not**
rejected by `add_customer_data` — on an empty store it reaches the end of
the pipeline and creates a new (empty) customer row, mutating the store. -/
theorem C4_empty_record_not_rejected :
    CustomerData.is_empty {} = true ∧
    (add_customer_data { customers := [], history := [] } (7/10) {}
        "manual" false "id1" "t1").2 ≠ { customers := [], history := [] } ∧
    (add_customer_data { customers := [], history := [] } (7/10) {}
        "manual" false "id1" "t1").1 = .created "id1" := by
  refine ⟨rfl, ?_, ?_⟩ <;> with_unfolding_all decide

/-- C4 amended: there is no empty-record guard.  For the all-`None` empty
record no candidate lookup fires and no match is found, but instead of a
rejection a fresh customer row holding the empty record is appended to
the store. -/
theorem C4_empty_record_creates_new_row (db : DBState) (threshold : ℚ)
    (source : String) (force : Bool) (newId ts : String) :
    find_potential_matches_in_db db {} = [] ∧
    add_customer_data db threshold {} source force newId ts =
      (.created newId,
       { customers := db.customers ++
           [{ id := newId, data := {}, created_at := ts, updated_at := ts,
              sources := [source], confidence_score := 1 }],
         history := db.history }) := by
  have hp : find_potential_matches_in_db db {} = [] := by
    simp [find_potential_matches_in_db, truthy, dedupById]
  have hm : find_matching_customers db threshold {} = [] := by
    simp [find_matching_customers, hp, sortByScoreDesc]
  exact ⟨hp, by simp [add_customer_data, hm]⟩

theorem mem_insertDesc {m x : MatchResult} {l : List MatchResult} :
    m ∈ insertDesc x l ↔ m = x ∨ m ∈ l := by
  induction l with
  | nil => simp [insertDesc]
  | cons y ys ih =>
    unfold insertDesc
    by_cases h : x.score ≥ y.score
    · simp [h]
    · simp only [h, if_false, List.mem_cons, ih]
      tauto

theorem mem_sortByScoreDesc {m : MatchResult} {l : List MatchResult} :
    m ∈ sortByScoreDesc l ↔ m ∈ l := by
  induction l with
  | nil => simp [sortByScoreDesc]
  | cons y ys ih => simp [sortByScoreDesc, mem_insertDesc, ih]

theorem find_matching_safe_iff (db : DBState) (threshold : ℚ)
    (cd : CustomerData) {m : MatchResult}
    (hm : m ∈ find_matching_customers db threshold cd) :
    m.is_safe_match = m.conflicts.isEmpty := by
  unfold find_matching_customers at hm
  rw [mem_sortByScoreDesc] at hm
  obtain ⟨row, _, hmk⟩ := List.mem_filterMap.mp hm
  by_cases hlt : (calculate_match_score FIELD_WEIGHTS cd row.data).1 < threshold
  · simp [hlt] at hmk
  · simp only [hlt, if_false] at hmk
    cases hmk
    rfl

/-- C7: whenever the best-ranked match carries a non-empty conflict map
and `force_merge` is off, `add_customer_data` reports
`conflict_detected` with exactly that conflict map and leaves the store
untouched. -/
theorem C7_conflicted_best_match_rejected (db : DBState) (threshold : ℚ)
    (cd : CustomerData) (source : String) (newId ts : String)
    (best : MatchResult) (rest : List MatchResult)
    (hm : find_matching_customers db threshold cd = best :: rest)
    (hc : best.conflicts ≠ []) :
    add_customer_data db threshold cd source false newId ts =
      (.conflictDetected best.conflicts best.score best.reason, db) := by
  have hmem : best ∈ find_matching_customers db threshold cd := by
    rw [hm]; exact List.mem_cons_self best rest
  have hsafe : best.is_safe_match = false := by
    rw [find_matching_safe_iff db threshold cd hmem]
    simpa [List.isEmpty_iff] using hc
  unfold add_customer_data
  rw [hm]
  simp [hsafe]

/-- The stored row of the C7 witness scenario. -/
def c7Row : CustomerRow :=
  { id := "c1",
    data := { documento := some "12345678900", email := some "x@y.com",
              telefone := some "111" },
    created_at := "t0", updated_at := "t0", sources := ["crm"],
    confidence_score := 1 }

/-- The store of the C7 witness scenario. -/
def c7Db : DBState := { customers := [c7Row], history := [] }

/-- The incoming record of the C7 witness scenario. -/
def c7Incoming : CustomerData :=
  { documento := some "12345678900", email := some "x@y.com", telefone := some "222" }

/-- Witness for C7: one stored customer sharing document and email with
the incoming record but with a different phone; the single match scores
`13/17 ≥ 0.7` with a phone conflict, and the call returns the conflict
report with the store unchanged. -/
theorem C7_conflicted_best_match_rejected_witness :
    add_customer_data c7Db (7/10) c7Incoming "manual" false "nid" "t2" =
      (.conflictDetected [("telefone", "Tel1: 222 vs Tel2: 111")] (13/17)
        "Conflitos detectados: telefone: Tel1: 222 vs Tel2: 111", c7Db) :=
  C7_conflicted_best_match_rejected c7Db (7/10) c7Incoming "manual" "nid" "t2"
    { customer_id := "c1", score := 13/17,
      conflicts := [("telefone", "Tel1: 222 vs Tel2: 111")],
      is_safe_match := false,
      reason := "Conflitos detectados: telefone: Tel1: 222 vs Tel2: 111" }
    [] (by with_unfolding_all decide) (by decide)

theorem getField_setField_same (m : CustomerData) (f : FieldName) (v : Option String) :
    getField (setField m f v) f = v := by
  cases f <;> rfl

theorem getField_setField_ne (m : CustomerData) {f g : FieldName} (v : Option String)
    (h : f ≠ g) : getField (setField m g v) f = getField m f := by
  cases f <;> cases g <;> first | rfl | exact absurd rfl h

theorem mergeFields_hist (e n : CustomerData) (source ts : String) :
    ∀ (fs : List FieldName) (m : CustomerData),
    (mergeFields e n source ts fs m).2 = fs.filterMap fun f =>
      if presentVal (getField n f) = true ∧ getField e f ≠ getField n f then
        some { timestamp := ts, field := f.attrName, old_value := getField e f,
               new_value := getField n f, source := source, confidence := (1:ℚ) }
      else none := by
  intro fs
  induction fs with
  | nil => intro m; rfl
  | cons f fs ih =>
    intro m
    by_cases hp : presentVal (getField n f) = true
    · by_cases hd : getField e f ≠ getField n f
      · simp [mergeFields, hp, hd, ih]
      · simp [mergeFields, hp, hd, ih]
    · simp [mergeFields, Bool.of_not_eq_true hp, hp, ih]

theorem mergeFields_fst_cons (e n : CustomerData) (source ts : String)
    (g : FieldName) (gs : List FieldName) (m : CustomerData) :
    (mergeFields e n source ts (g :: gs) m).1 =
      (mergeFields e n source ts gs (setField m g
        (if presentVal (getField n g) then getField n g else getField e g))).1 := by
  by_cases hp : presentVal (getField n g) = true
  · by_cases hd : getField e g ≠ getField n g
    · simp [mergeFields, hp, hd]
    · simp [mergeFields, hp, hd]
  · simp [mergeFields, hp, Bool.of_not_eq_true hp]

theorem mergeFields_not_mem (e n : CustomerData) (source ts : String) :
    ∀ (fs : List FieldName) (m : CustomerData) (f : FieldName), f ∉ fs →
    getField (mergeFields e n source ts fs m).1 f = getField m f := by
  intro fs
  induction fs with
  | nil => intro m f _; rfl
  | cons g gs ih =>
    intro m f hf
    have hne : f ≠ g := fun h => hf (h ▸ List.mem_cons_self g gs)
    have hfs : f ∉ gs := fun h => hf (List.mem_cons_of_mem g h)
    rw [mergeFields_fst_cons, ih _ f hfs, getField_setField_ne _ _ hne]

theorem mergeFields_mem (e n : CustomerData) (source ts : String) :
    ∀ (fs : List FieldName) (m : CustomerData) (f : FieldName), f ∈ fs → fs.Nodup →
    getField (mergeFields e n source ts fs m).1 f =
      (if presentVal (getField n f) then getField n f else getField e f) := by
  intro fs
  induction fs with
  | nil => intro m f hf _; simp at hf
  | cons g gs ih =>
    intro m f hf hnd
    rcases List.mem_cons.mp hf with heq | hmem
    · subst heq
      have hfs : f ∉ gs := (List.nodup_cons.mp hnd).1
      rw [mergeFields_fst_cons, mergeFields_not_mem e n source ts gs _ f hfs,
        getField_setField_same]
    · rw [mergeFields_fst_cons]
      exact ih _ f hmem (List.nodup_cons.mp hnd).2

/-- C3: the merge engine takes the incoming value exactly when it is
non-null and non-blank after trimming (otherwise the existing value),
and emits exactly one history entry — old value, new value, the given
source, confidence `1.0` — for each recognized field whose present
incoming value differs from the existing one, in field order, and no
other entries. -/
theorem C3_merge_semantics (existing incoming : CustomerData) (source ts : String) :
    (∀ f : FieldName, getField (merge_customer_data existing incoming source ts).1 f =
      (if presentVal (getField incoming f) then getField incoming f
       else getField existing f)) ∧
    (merge_customer_data existing incoming source ts).2 =
      VALID_CUSTOMER_FIELDS.filterMap fun f =>
        if presentVal (getField incoming f) = true
            ∧ getField existing f ≠ getField incoming f then
          some { timestamp := ts, field := f.attrName,
                 old_value := getField existing f,
                 new_value := getField incoming f,
                 source := source, confidence := (1:ℚ) }
        else none := by
  constructor
  · intro f
    exact mergeFields_mem existing incoming source ts VALID_CUSTOMER_FIELDS {} f
      (by cases f <;> decide) (by decide)
  · exact mergeFields_hist existing incoming source ts VALID_CUSTOMER_FIELDS {}

theorem mergeFields_self (a : CustomerData) (source ts : String) :
    ∀ (fs : List FieldName) (m : CustomerData),
    mergeFields a a source ts fs m =
      (fs.foldl (fun acc f => setField acc f (getField a f)) m, []) := by
  intro fs
  induction fs with
  | nil => intro m; rfl
  | cons f fs ih =>
    intro m
    by_cases hp : presentVal (getField a f) = true
    · simp [mergeFields, hp, ih]
    · simp [mergeFields, Bool.of_not_eq_true hp, hp, ih]

/-- C8: merging a record into an exactly equal record returns the record
unchanged and produces no history entries. -/
theorem C8_merge_idempotent (a : CustomerData) (source ts : String) :
    merge_customer_data a a source ts = (a, []) := by
  rw [merge_customer_data, mergeFields_self]
  cases a
  simp [VALID_CUSTOMER_FIELDS, setField, getField]

set_option maxRecDepth 4000 in
/-- C6 counterexample: the difflib ratio is not commutative.  On
`"abxcdxab"` vs `"cdyab"` the first longest block chosen is `"ab"`
(earliest in the first string), killing the later `"cd"`/`"ab"` matches,
giving `4/13`; in the swapped direction `"cd"` is chosen first and `"ab"`
still matches to its right, giving `8/13`. -/
theorem C6_similarity_not_commutative :
    similarity_score "abxcdxab" "cdyab" ≠ similarity_score "cdyab" "abxcdxab" := by
  with_unfolding_all decide

/-- C6 amended: `similarity_score a b = similarity_score b a` holds when
the two strings are equal or either is empty, but not for all pairs. -/
theorem C6_similarity_commutative_special (a b : String)
    (h : a = b ∨ a = "" ∨ b = "") :
    similarity_score a b = similarity_score b a := by
  rcases h with h | h | h
  · subst h; rfl
  · subst h; simp [similarity_score, truthyStr]
  · subst h; simp [similarity_score, truthyStr]

/-- Witness for the amended C6 at an empty first string. -/
theorem C6_similarity_commutative_special_witness :
    similarity_score "" "abc" = similarity_score "abc" "" :=
  C6_similarity_commutative_special "" "abc" (Or.inr (Or.inl rfl))

theorem toNat_ofNat_shift {n : Nat} (h1 : 65 ≤ n) (h2 : n ≤ 90) :
    (Char.ofNat (n + 32)).toNat = n + 32 := by
  have hv : (n + 32).isValidChar := by
    constructor
    omega
  rw [Char.ofNat, dif_pos hv]
  simp [Char.ofNatAux, Char.toNat, UInt32.toNat]

theorem toLower_idem (c : Char) : c.toLower.toLower = c.toLower := by
  by_cases h : c.toNat ≥ 65 ∧ c.toNat ≤ 90
  · have hv := toNat_ofNat_shift h.1 h.2
    simp only [Char.toLower, h.1, h.2, and_self, if_true, ge_iff_le]
    rw [if_neg]
    omega
  · simp only [Char.toLower, h, if_neg, if_false]

theorem head?_dropWhile {p : Char → Bool} : ∀ {l : List Char} {c : Char},
    (l.dropWhile p).head? = some c → p c = false := by
  intro l
  induction l with
  | nil => intro c h; simp at h
  | cons a as ih =>
    intro c h
    rw [List.dropWhile_cons] at h
    by_cases hp : p a = true
    · exact ih (by simpa [hp] using h)
    · rw [if_neg hp] at h
      simp at h
      rw [← h]
      exact Bool.of_not_eq_true hp

theorem suffix_getLast? {l₁ l₂ : List Char} (h : l₁ <:+ l₂) (hne : l₁ ≠ []) :
    l₂.getLast? = l₁.getLast? := by
  obtain ⟨w, rfl⟩ := h
  rw [List.getLast?_append]
  cases hl : l₁.getLast? with
  | none => exact absurd (List.getLast?_eq_none_iff.mp hl) hne
  | some c => rfl

theorem dropWhile_eq_self_of_head {p : Char → Bool} {l : List Char}
    (h : ∀ c, l.head? = some c → p c = false) : l.dropWhile p = l := by
  cases l with
  | nil => rfl
  | cons a as => rw [List.dropWhile_cons, if_neg (by simp [h a rfl])]

theorem pyStrip_noLead {l : List Char} {c : Char}
    (h : (pyStrip l).head? = some c) : pyIsSpace c = false := by
  unfold pyStrip at h
  rw [List.head?_reverse] at h
  have hne : (((l.dropWhile pyIsSpace).reverse).dropWhile pyIsSpace) ≠ [] := by
    intro h0
    rw [h0] at h
    simp at h
  have hx : ((l.dropWhile pyIsSpace).reverse).getLast? = some c := by
    rw [suffix_getLast? (List.dropWhile_suffix pyIsSpace) hne]
    exact h
  rw [List.getLast?_reverse] at hx
  exact head?_dropWhile hx

theorem pyStrip_noTrail {l : List Char} {c : Char}
    (h : (pyStrip l).getLast? = some c) : pyIsSpace c = false := by
  unfold pyStrip at h
  rw [List.getLast?_reverse] at h
  exact head?_dropWhile h

theorem pyStrip_fix {l : List Char}
    (h1 : ∀ c, l.head? = some c → pyIsSpace c = false)
    (h2 : ∀ c, l.getLast? = some c → pyIsSpace c = false) : pyStrip l = l := by
  unfold pyStrip
  rw [dropWhile_eq_self_of_head h1,
    dropWhile_eq_self_of_head (fun c hc => h2 c (by rwa [List.head?_reverse] at hc)),
    List.reverse_reverse]

theorem noLead_collapseWS {l : List Char}
    (h : ∀ c, l.head? = some c → pyIsSpace c = false) :
    ∀ c, (collapseWS l).head? = some c → pyIsSpace c = false := by
  intro c hc
  cases l with
  | nil => simp [collapseWS] at hc
  | cons a as =>
    have hp : pyIsSpace a = false := h a rfl
    rw [collapseWS, if_neg (by simp [hp])] at hc
    simp at hc
    rw [← hc]
    exact hp

theorem collapseWS_ne_nil {l : List Char} (h : l ≠ []) : collapseWS l ≠ [] := by
  cases l with
  | nil => exact absurd rfl h
  | cons a as =>
    rw [collapseWS]
    by_cases hp : pyIsSpace a = true <;> simp [hp]

theorem getLast?_cons_of_ne_nil {a : Char} {l : List Char} (h : l ≠ []) :
    (a :: l).getLast? = l.getLast? := by
  cases l with
  | nil => exact absurd rfl h
  | cons b bs => exact List.getLast?_cons_cons

theorem getLast?_mem_list {l : List Char} {c : Char} (h : l.getLast? = some c) : c ∈ l := by
  induction l with
  | nil => simp at h
  | cons a as ih =>
    cases as with
    | nil => simp at h; simp [h]
    | cons b bs =>
      rw [List.getLast?_cons_cons] at h
      exact List.mem_cons_of_mem a (ih h)

theorem getLast?_collapseWS : ∀ {l : List Char},
    (∀ c, l.getLast? = some c → pyIsSpace c = false) →
    ∀ c, (collapseWS l).getLast? = some c → pyIsSpace c = false := by
  intro l
  induction l using collapseWS.induct with
  | case1 => intro _ c hc; simp [collapseWS] at hc
  | case2 a rest hp ih =>
    intro h c hc
    rw [collapseWS, if_pos hp] at hc
    have hrest_ne : rest ≠ [] := by
      intro h0
      subst h0
      have hfa := h a (by simp)
      rw [hp] at hfa
      cases hfa
    have hdw_ne : rest.dropWhile pyIsSpace ≠ [] := by
      intro h0
      have hall := List.dropWhile_eq_nil_iff.mp h0
      cases hlast : rest.getLast? with
      | none => exact hrest_ne (List.getLast?_eq_none_iff.mp hlast)
      | some d =>
        have hd : pyIsSpace d = false :=
          h d (by rw [getLast?_cons_of_ne_nil hrest_ne]; exact hlast)
        have hd' : pyIsSpace d = true := hall d (getLast?_mem_list hlast)
        rw [hd] at hd'
        cases hd'
    rw [getLast?_cons_of_ne_nil (collapseWS_ne_nil hdw_ne)] at hc
    refine ih ?_ c hc
    intro d hd
    have hrg : rest.getLast? = (rest.dropWhile pyIsSpace).getLast? :=
      suffix_getLast? (List.dropWhile_suffix pyIsSpace) hdw_ne
    exact h d (by rw [getLast?_cons_of_ne_nil hrest_ne, hrg]; exact hd)
  | case3 a rest hp ih =>
    intro h c hc
    rw [collapseWS, if_neg hp] at hc
    by_cases h0 : rest = []
    · subst h0
      simp [collapseWS] at hc
      rw [← hc]
      exact Bool.of_not_eq_true hp
    · rw [getLast?_cons_of_ne_nil (collapseWS_ne_nil h0)] at hc
      refine ih ?_ c hc
      intro d hd
      exact h d (by rw [getLast?_cons_of_ne_nil h0]; exact hd)

theorem collapseWS_spaces : ∀ {l : List Char} {c : Char}, c ∈ collapseWS l →
    pyIsSpace c = true → c = ' ' := by
  intro l
  induction l using collapseWS.induct with
  | case1 => intro c hc _; simp [collapseWS] at hc
  | case2 a rest hp ih =>
    intro c hc hs
    rw [collapseWS, if_pos hp] at hc
    rcases List.mem_cons.mp hc with h1 | h2
    · exact h1
    · exact ih h2 hs
  | case3 a rest hp ih =>
    intro c hc hs
    rw [collapseWS, if_neg hp] at hc
    rcases List.mem_cons.mp hc with h1 | h2
    · subst h1
      exact absurd hs hp
    · exact ih h2 hs

/-- No two adjacent characters are both whitespace. -/
def noAdjSpaces (a b : Char) : Prop := ¬(pyIsSpace a = true ∧ pyIsSpace b = true)

theorem collapseWS_chain : ∀ (l : List Char), List.Chain' noAdjSpaces (collapseWS l) := by
  intro l
  induction l using collapseWS.induct with
  | case1 => simp [collapseWS]
  | case2 a rest hp ih =>
    rw [collapseWS, if_pos hp, List.chain'_cons']
    refine ⟨?_, ih⟩
    intro y hy
    have hns : pyIsSpace y = false :=
      noLead_collapseWS (fun d hd => head?_dropWhile hd) y (Option.mem_def.mp hy)
    intro hcontra
    rw [hns] at hcontra
    exact Bool.false_ne_true hcontra.2
  | case3 a rest hp ih =>
    rw [collapseWS, if_neg hp, List.chain'_cons']
    refine ⟨?_, ih⟩
    intro y _ hcontra
    exact hp hcontra.1

theorem collapseWS_fix : ∀ {l : List Char},
    (∀ c ∈ l, pyIsSpace c = true → c = ' ') →
    List.Chain' noAdjSpaces l → collapseWS l = l := by
  intro l
  induction l with
  | nil =>
    intro _ _
    rw [collapseWS]
  | cons a rest ih =>
    intro hs hch
    have ihr := ih (fun c hc hsp => hs c (List.mem_cons_of_mem a hc) hsp)
      (List.Chain'.tail hch)
    by_cases hp : pyIsSpace a = true
    · rw [collapseWS, if_pos hp]
      have ha : a = ' ' := hs a (List.mem_cons_self a rest) hp
      have hdw : rest.dropWhile pyIsSpace = rest := by
        cases rest with
        | nil => rfl
        | cons b bs =>
          rw [List.dropWhile_cons, if_neg]
          have hlink := (List.chain'_cons.mp hch).1
          intro hb
          exact hlink ⟨hp, by simpa using hb⟩
      rw [hdw, ihr, ha]
    · rw [collapseWS, if_neg hp, ihr]

theorem map_id_of_mem {f : Char → Char} : ∀ {l : List Char},
    (∀ c ∈ l, f c = c) → l.map f = l := by
  intro l
  induction l with
  | nil => intro _; rfl
  | cons a as ih =>
    intro h
    rw [List.map_cons, h a (List.mem_cons_self a as),
      ih fun c hc => h c (List.mem_cons_of_mem a hc)]

theorem mem_collapseWS : ∀ {l : List Char} {c : Char},
    c ∈ collapseWS l → c = ' ' ∨ c ∈ l := by
  intro l
  induction l using collapseWS.induct with
  | case1 => intro c h; simp [collapseWS] at h
  | case2 a rest hp ih =>
    intro c h
    rw [collapseWS, if_pos hp] at h
    rcases List.mem_cons.mp h with h1 | h2
    · exact Or.inl h1
    · rcases ih h2 with h3 | h3
      · exact Or.inl h3
      · exact Or.inr (List.mem_cons_of_mem a ((List.dropWhile_suffix pyIsSpace).subset h3))
  | case3 a rest hp ih =>
    intro c h
    rw [collapseWS, if_neg hp] at h
    rcases List.mem_cons.mp h with h1 | h2
    · exact Or.inr (h1 ▸ List.mem_cons_self a rest)
    · rcases ih h2 with h3 | h3
      · exact Or.inl h3
      · exact Or.inr (List.mem_cons_of_mem a h3)

theorem mem_of_mem_pyStrip {l : List Char} {c : Char} (h : c ∈ pyStrip l) : c ∈ l := by
  unfold pyStrip at h
  rw [List.mem_reverse] at h
  have h2 := (List.dropWhile_suffix pyIsSpace).subset h
  rw [List.mem_reverse] at h2
  exact (List.dropWhile_suffix pyIsSpace).subset h2

theorem normalize_text_idem (s : String) :
    normalize_text (normalize_text s) = normalize_text s := by
  by_cases hs : s.data.isEmpty
  · have hval : normalize_text s = "" := by rw [normalize_text, if_pos hs]
    rw [hval]
    decide
  · have hval : normalize_text s = ⟨collapseWS (pyStrip (s.data.map Char.toLower))⟩ := by
      rw [normalize_text, if_neg hs]
    rw [hval]
    set t := collapseWS (pyStrip (s.data.map Char.toLower)) with ht
    by_cases h0 : t.isEmpty
    · have hnil : t = [] := by simpa using h0
      rw [hnil]
      rfl
    · have hval2 : normalize_text ⟨t⟩ = ⟨collapseWS (pyStrip (t.map Char.toLower))⟩ := by
        rw [normalize_text, if_neg (by simpa using h0)]
      rw [hval2]
      have hmap : t.map Char.toLower = t := by
        refine map_id_of_mem fun c hc => ?_
        rcases mem_collapseWS hc with h1 | h1
        · rw [h1]
          rfl
        · have hmem := mem_of_mem_pyStrip h1
          rw [List.mem_map] at hmem
          obtain ⟨d, _, rfl⟩ := hmem
          exact toLower_idem d
      have hstrip : pyStrip t = t :=
        pyStrip_fix (noLead_collapseWS fun d hd => pyStrip_noLead hd)
          (getLast?_collapseWS fun d hd => pyStrip_noTrail hd)
      rw [hmap, hstrip,
        collapseWS_fix (fun c hc hsp => collapseWS_spaces hc hsp) (collapseWS_chain _)]

theorem normalize_document_idem (s : String) :
    normalize_document (normalize_document s) = normalize_document s := by
  by_cases hs : s.data.isEmpty
  · have hval : normalize_document s = "" := by rw [normalize_document, if_pos hs]
    rw [hval]
    decide
  · have hval : normalize_document s = ⟨s.data.filter Char.isDigit⟩ := by
      rw [normalize_document, if_neg hs]
    rw [hval]
    by_cases h0 : (s.data.filter Char.isDigit).isEmpty
    · have hnil : s.data.filter Char.isDigit = [] := by simpa using h0
      rw [hnil]
      rfl
    · have hval2 : normalize_document ⟨s.data.filter Char.isDigit⟩ =
          ⟨(s.data.filter Char.isDigit).filter Char.isDigit⟩ := by
        rw [normalize_document, if_neg (by simpa using h0)]
      rw [hval2, List.filter_filter]
      simp

/-- C10: each of the three normalizers is idempotent. -/
theorem C10_normalizers_idempotent (s : String) :
    normalize_text (normalize_text s) = normalize_text s ∧
    normalize_document (normalize_document s) = normalize_document s ∧
    normalize_phone (normalize_phone s) = normalize_phone s :=
  ⟨normalize_text_idem s, normalize_document_idem s, normalize_document_idem s⟩
